import Mathlib

/-!
Verification of the AgiAI RAG chatbot (src/server/chatbot.py and
src/server/main.py) against its natural-language specification.

The repository's own Python code is embedded shallowly below.  External
collaborators that the code calls but whose implementation is not part of
the repository (the network fetch + HTML extraction, the URL parser's
netloc, the embedding model, langchain's text splitter and the FAISS
vector store) are represented as explicit oracle parameters or, where the
specification fixes their contract, as definitions modelled from the spec
(each such definition says so in its doc comment).
-/

namespace AgiAI

/-- Document record built by `WebsiteScraper.scrape_website`
(chatbot.py lines 94-97): `content` is the extracted page text,
`source` the page URL. -/
structure Document where
  content : String
  source : String
deriving Repr, DecidableEq

/-- State of one crawl run, mirroring `WebsiteScraper.scrape_website`
(chatbot.py lines 75-103): `toVisit` is the FIFO frontier `to_visit`,
`visited` the insertion-ordered contents of `visited_urls` (a Python
set; the loop only adds a URL after checking it is absent, so a list
extended at those points represents it exactly), `fetched` a log of the
URLs passed to `scrape_page` (one entry per fetch performed), and
`docs` the accumulated documents. -/
structure CrawlState where
  toVisit : List String
  visited : List String
  fetched : List String
  docs : List Document
deriving Repr, DecidableEq

/-- Python `str.strip()`: remove leading and trailing whitespace. -/
def pyStrip (s : String) : String :=
  String.mk (((s.data.dropWhile Char.isWhitespace).reverse.dropWhile Char.isWhitespace).reverse)

/-- Python `str.lower()`: lowercase every character. -/
def pyLower (s : String) : String :=
  String.mk (s.data.map Char.toLower)

/-- Condition under which `scrape_website` emits a document for extracted
text `t` (chatbot.py line 93): `if text and len(text.strip()) > 100`. -/
def docCond (t : String) : Prop := t ≠ "" ∧ 100 < (pyStrip t).length

instance (t : String) : Decidable (docCond t) := by
  unfold docCond; infer_instance

/-- Link filter of `WebsiteScraper.scrape_page` (chatbot.py lines 63-67)
combined with the re-filter at line 100: a raw link is kept when its
netloc equals the scraper's `domain` (`is_valid_url`, lines 40-43) and it
is not already visited.  `netloc` is the URL parser treated as an oracle;
`fetch` below stands for the network GET + BeautifulSoup extraction and
returns the extracted text and the absolute raw link targets, or `none`
when the request raises (lines 71-73 return `(None, [])`). -/
def keepLink (netloc : String → String) (domain : String)
    (visited : List String) (l : String) : Bool :=
  netloc l == domain && !visited.contains l

/-- One-iteration-per-fuel embedding of the `while` loop of
`WebsiteScraper.scrape_website` (chatbot.py lines 82-100).  The loop
runs while the frontier is non-empty and `len(visited) < max_pages`;
each iteration pops the front URL, skips it if visited, otherwise marks
it visited, fetches it, emits a document when `docCond` holds, and
appends the filtered new links to the frontier tail. -/
def crawlLoop (fetch : String → Option (String × List String))
    (netloc : String → String) (domain : String) (maxPages : Nat) :
    Nat → CrawlState → CrawlState
  | 0, s => s
  | fuel + 1, s =>
    match s.toVisit with
    | [] => s
    | url :: rest =>
      if s.visited.length < maxPages then
        if s.visited.contains url then
          crawlLoop fetch netloc domain maxPages fuel { s with toVisit := rest }
        else
          let visited' := s.visited ++ [url]
          let fetched' := s.fetched ++ [url]
          match fetch url with
          | none =>
            crawlLoop fetch netloc domain maxPages fuel
              { toVisit := rest, visited := visited', fetched := fetched', docs := s.docs }
          | some (text, rawLinks) =>
            let links := rawLinks.filter (keepLink netloc domain visited')
            let docs' := if docCond text then s.docs ++ [⟨text, url⟩] else s.docs
            let toVisit' := rest ++ links.filter (fun l => !visited'.contains l)
            crawlLoop fetch netloc domain maxPages fuel
              { toVisit := toVisit', visited := visited', fetched := fetched', docs := docs' }
      else s

/-- Entry point of a crawl run (`WebsiteScraper.__init__` +
`scrape_website`): frontier seeded with the base URL, `domain` fixed to
`urlparse(base_url).netloc`, empty visited set.  `fuel` bounds the
number of loop iterations considered; every reachable state of the run
is `scrape_website ... fuel` for some `fuel`. -/
def scrape_website (fetch : String → Option (String × List String))
    (netloc : String → String) (base_url : String) (maxPages fuel : Nat) : CrawlState :=
  crawlLoop fetch netloc (netloc base_url) maxPages fuel ⟨[base_url], [], [], []⟩

/-- Crawl invariant used for C5: the visited set stays within `maxPages`
and every visited or frontier URL has the seed's netloc. -/
theorem crawlLoop_visited_inv (fetch : String → Option (String × List String))
    (netloc : String → String) (domain : String) (maxPages : Nat)
    (fuel : Nat) (s : CrawlState)
    (hlen : s.visited.length ≤ maxPages)
    (hdom : ∀ u ∈ s.visited, netloc u = domain)
    (hfront : ∀ u ∈ s.toVisit, netloc u = domain) :
    (crawlLoop fetch netloc domain maxPages fuel s).visited.length ≤ maxPages ∧
    ∀ u ∈ (crawlLoop fetch netloc domain maxPages fuel s).visited, netloc u = domain := by
  induction fuel generalizing s with
  | zero => exact ⟨hlen, hdom⟩
  | succ n ih =>
    obtain ⟨tv, vis, fet, docs⟩ := s
    cases tv with
    | nil => exact ⟨hlen, hdom⟩
    | cons url rest =>
      simp only [crawlLoop]
      by_cases hm : vis.length < maxPages
      · rw [if_pos hm]
        have hresturl : ∀ u ∈ rest, netloc u = domain := by
          intro u hu
          exact hfront u (List.mem_cons_of_mem _ hu)
        by_cases hc : vis.contains url = true
        · rw [if_pos hc]
          exact ih _ hlen hdom hresturl
        · rw [if_neg hc]
          have hurl : netloc url = domain := hfront url (List.mem_cons_self _ _)
          have hvis' : ∀ u ∈ vis ++ [url], netloc u = domain := by
            intro u hu
            rcases List.mem_append.1 hu with h | h
            · exact hdom u h
            · rw [List.mem_singleton.1 h]; exact hurl
          have hlen' : (vis ++ [url]).length ≤ maxPages := by
            simp only [List.length_append, List.length_singleton]
            omega
          cases hf : fetch url with
          | none => exact ih _ hlen' hvis' hresturl
          | some p =>
            obtain ⟨text, rawLinks⟩ := p
            apply ih _ hlen' hvis'
            intro u hu
            rcases List.mem_append.1 hu with h | h
            · exact hresturl u h
            · have h' := (List.mem_filter.1 h).1
              have h'' := (List.mem_filter.1 h').2
              simp only [keepLink, Bool.and_eq_true, beq_iff_eq] at h''
              exact h''.1
      · rw [if_neg hm]
        exact ⟨hlen, hdom⟩

/-- Crawl invariant used for C6: the fetch log equals the visited list
(a URL is fetched exactly when it is newly marked visited, chatbot.py
lines 89-91) and the visited list has no duplicates. -/
theorem crawlLoop_fetched_inv (fetch : String → Option (String × List String))
    (netloc : String → String) (domain : String) (maxPages : Nat)
    (fuel : Nat) (s : CrawlState)
    (heq : s.fetched = s.visited) (hnd : s.visited.Nodup) :
    (crawlLoop fetch netloc domain maxPages fuel s).fetched =
      (crawlLoop fetch netloc domain maxPages fuel s).visited ∧
    (crawlLoop fetch netloc domain maxPages fuel s).visited.Nodup := by
  induction fuel generalizing s with
  | zero => exact ⟨heq, hnd⟩
  | succ n ih =>
    obtain ⟨tv, vis, fet, docs⟩ := s
    cases tv with
    | nil => exact ⟨heq, hnd⟩
    | cons url rest =>
      simp only [crawlLoop]
      by_cases hm : vis.length < maxPages
      · rw [if_pos hm]
        by_cases hc : vis.contains url = true
        · rw [if_pos hc]
          exact ih _ heq hnd
        · rw [if_neg hc]
          have hmem : url ∉ vis := by simpa using hc
          have heq' : fet ++ [url] = vis ++ [url] := by
            simp only at heq
            rw [heq]
          have hnd' : (vis ++ [url]).Nodup := by
            simp [List.nodup_append, hmem, hnd]
          cases hf : fetch url with
          | none => exact ih _ heq' hnd'
          | some p =>
            obtain ⟨text, rawLinks⟩ := p
            exact ih _ heq' hnd'
      · rw [if_neg hm]
        exact ⟨heq, hnd⟩

/-- Boolean form of `docCond` applied through the fetch oracle: `true`
exactly when fetching `u` succeeded and the emission test of
chatbot.py line 93 passes on its text. -/
def emitB (fetch : String → Option (String × List String)) (u : String) : Bool :=
  match fetch u with
  | none => false
  | some (t, _) => decide (docCond t)

/-- Document the crawl builds for a fetched URL `u` (chatbot.py lines
94-97): its content is the text the fetch returned. -/
def mkDoc (fetch : String → Option (String × List String)) (u : String) : Document :=
  match fetch u with
  | none => ⟨"", u⟩
  | some (t, _) => ⟨t, u⟩

/-- Crawl invariant used for C3: the emitted documents are exactly the
fetched URLs passing the emission test, in fetch order. -/
theorem crawlLoop_docs_inv (fetch : String → Option (String × List String))
    (netloc : String → String) (domain : String) (maxPages : Nat)
    (fuel : Nat) (s : CrawlState)
    (hdocs : s.docs = (s.fetched.filter (emitB fetch)).map (mkDoc fetch)) :
    (crawlLoop fetch netloc domain maxPages fuel s).docs =
      ((crawlLoop fetch netloc domain maxPages fuel s).fetched.filter (emitB fetch)).map
        (mkDoc fetch) := by
  induction fuel generalizing s with
  | zero => exact hdocs
  | succ n ih =>
    obtain ⟨tv, vis, fet, docs⟩ := s
    cases tv with
    | nil => exact hdocs
    | cons url rest =>
      simp only [crawlLoop]
      by_cases hm : vis.length < maxPages
      · rw [if_pos hm]
        by_cases hc : vis.contains url = true
        · rw [if_pos hc]
          exact ih _ hdocs
        · rw [if_neg hc]
          cases hf : fetch url with
          | none =>
            apply ih
            simp only at hdocs ⊢
            rw [List.filter_append, hdocs]
            have : List.filter (emitB fetch) [url] = [] := by
              simp [List.filter, emitB, hf]
            rw [this, List.append_nil]
          | some p =>
            obtain ⟨text, rawLinks⟩ := p
            apply ih
            simp only at hdocs ⊢
            rw [List.filter_append, List.map_append, hdocs]
            by_cases hd : docCond text
            · rw [if_pos hd]
              have h1 : List.filter (emitB fetch) [url] = [url] := by
                simp [List.filter, emitB, hf, hd]
              rw [h1]
              simp [mkDoc, hf]
            · rw [if_neg hd]
              have h1 : List.filter (emitB fetch) [url] = [] := by
                simp [List.filter, emitB, hf, hd]
              rw [h1]
              simp
      · rw [if_neg hm]
        exact hdocs

/-- Emission test on the raw (untrimmed) extracted text length, the form
the specification states: fetching `u` succeeded and its text is longer
than 100 characters. -/
def emitLenB (fetch : String → Option (String × List String)) (u : String) : Bool :=
  match fetch u with
  | none => false
  | some (t, _) => decide (100 < t.length)

/-- Helper: the document built for a fetched URL carries that URL as its
source. -/
theorem mkDoc_source (fetch : String → Option (String × List String)) (u : String) :
    (mkDoc fetch u).source = u := by
  unfold mkDoc
  cases fetch u with
  | none => rfl
  | some p => obtain ⟨t, ls⟩ := p; rfl

/-- C5: for every crawl run, at every point during and after the run
(every fuel bound), the visited set has size at most `maxPages` and
every visited URL has the same netloc as the seed URL. -/
theorem claim_C5_visited_bounded_and_same_domain
    (fetch : String → Option (String × List String)) (netloc : String → String)
    (base_url : String) (maxPages fuel : Nat) :
    (scrape_website fetch netloc base_url maxPages fuel).visited.length ≤ maxPages ∧
    ∀ u ∈ (scrape_website fetch netloc base_url maxPages fuel).visited,
      netloc u = netloc base_url := by
  apply crawlLoop_visited_inv
  · exact Nat.zero_le _
  · intro u hu
    simp at hu
  · intro u hu
    rw [List.mem_singleton.1 hu]

/-- C6: within one crawl run no URL is fetched more than once — at every
point during and after the run the log of fetch operations contains no
duplicates. -/
theorem claim_C6_no_url_fetched_twice
    (fetch : String → Option (String × List String)) (netloc : String → String)
    (base_url : String) (maxPages fuel : Nat) :
    (scrape_website fetch netloc base_url maxPages fuel).fetched.Nodup := by
  have h := crawlLoop_fetched_inv fetch netloc (netloc base_url) maxPages fuel
    ⟨[base_url], [], [], []⟩ rfl List.nodup_nil
  rw [scrape_website]
  exact h.1 ▸ h.2

/-- C3: for a fetch oracle whose extracted text is already trimmed — as
guaranteed by `soup.get_text(separator=' ', strip=True)` at chatbot.py
line 60 — a Document is emitted for a processed (fetched) page exactly
when the extracted text's length is strictly greater than 100: the
emitted documents are precisely the fetched pages passing that length
test, and a page in the fetch log has a document with its URL as source
iff its fetch succeeded with text longer than 100 characters. -/
theorem claim_C3_document_emitted_iff_length
    (fetch : String → Option (String × List String)) (netloc : String → String)
    (base_url : String) (maxPages fuel : Nat)
    (hf : ∀ u t ls, fetch u = some (t, ls) → pyStrip t = t) :
    (scrape_website fetch netloc base_url maxPages fuel).docs =
      ((scrape_website fetch netloc base_url maxPages fuel).fetched.filter
        (emitLenB fetch)).map (mkDoc fetch) ∧
    ∀ u ∈ (scrape_website fetch netloc base_url maxPages fuel).fetched,
      ((∃ d ∈ (scrape_website fetch netloc base_url maxPages fuel).docs, d.source = u) ↔
        ∃ t ls, fetch u = some (t, ls) ∧ 100 < t.length) := by
  have hEB : emitB fetch = emitLenB fetch := by
    funext u
    unfold emitB emitLenB
    cases hfu : fetch u with
    | none => rfl
    | some p =>
      obtain ⟨t, ls⟩ := p
      have ht := hf u t ls hfu
      apply decide_eq_decide.2
      unfold docCond
      rw [ht]
      constructor
      · rintro ⟨-, h⟩
        exact h
      · intro h
        refine ⟨?_, h⟩
        intro h0
        rw [h0] at h
        simp at h
  have h1 : (scrape_website fetch netloc base_url maxPages fuel).docs =
      ((scrape_website fetch netloc base_url maxPages fuel).fetched.filter
        (emitLenB fetch)).map (mkDoc fetch) := by
    rw [← hEB, scrape_website]
    exact crawlLoop_docs_inv fetch netloc (netloc base_url) maxPages fuel
      ⟨[base_url], [], [], []⟩ rfl
  refine ⟨h1, ?_⟩
  intro u hu
  constructor
  · rintro ⟨d, hd, hsrc⟩
    rw [h1] at hd
    obtain ⟨v, hv, hdv⟩ := List.mem_map.1 hd
    have hvu : v = u := by
      rw [← hsrc, ← hdv, mkDoc_source]
    subst hvu
    have hE := (List.mem_filter.1 hv).2
    unfold emitLenB at hE
    cases hfv : fetch v with
    | none =>
      rw [hfv] at hE
      simp at hE
    | some p =>
      obtain ⟨t, ls⟩ := p
      rw [hfv] at hE
      simp only [decide_eq_true_eq] at hE
      exact ⟨t, ls, rfl, hE⟩
  · rintro ⟨t, ls, hfu, hlen⟩
    have hE : emitLenB fetch u = true := by
      unfold emitLenB
      rw [hfu]
      simpa using hlen
    refine ⟨mkDoc fetch u, ?_, mkDoc_source fetch u⟩
    rw [h1]
    exact List.mem_map_of_mem _ (List.mem_filter.2 ⟨hu, hE⟩)

/-- Concrete page text for the C3 witness: 150 characters, no
surrounding whitespace. -/
def exText : String := String.mk (List.replicate 150 'a')

/-- Concrete one-page fetch oracle for the C3 witness. -/
def exFetch : String → Option (String × List String) := fun u =>
  if u = "https://agiteks.com" then some (exText, []) else none

/-- Concrete netloc oracle for the C3 witness. -/
def exNetloc : String → String := fun _ => "agiteks.com"

set_option maxRecDepth 40000 in
/-- Witness for C3 at a concrete crawl: the single fetched page has
trimmed text of length 150 > 100 and yields exactly one document. -/
theorem claim_C3_witness :
    (scrape_website exFetch exNetloc "https://agiteks.com" 20 5).docs =
      [⟨exText, "https://agiteks.com"⟩] := by
  have h := (claim_C3_document_emitted_iff_length exFetch exNetloc
    "https://agiteks.com" 20 5 ?_).1
  · rw [h]
    decide
  · intro u t ls hcall
    unfold exFetch at hcall
    by_cases hu : u = "https://agiteks.com"
    · rw [if_pos hu] at hcall
      injection hcall with h1
      injection h1 with h2 h3
      subst h2
      decide
    · rw [if_neg hu] at hcall
      exact Option.noConfusion hcall

/-- Modelled from the spec: langchain's `RecursiveCharacterTextSplitter`
(instantiated with chunk_size=1000, chunk_overlap=200 and
length_function=len at chatbot.py lines 121-125) is external library
code not present in the repository.  Spec §4.2 fixes the chunker's
contract: content that fits within the chunk size yields exactly one
chunk, otherwise the text is split at the chunk size and each
subsequent chunk begins `overlap` (200) units before the previous
chunk's end. -/
def split_text (l : List Char) : List (List Char) :=
  if _h : l.length ≤ 1000 then [l]
  else l.take 1000 :: split_text (l.drop 800)
termination_by l.length
decreasing_by
  rw [List.length_drop]
  omega

/-- String-level chunker: split the document content, viewed as its
character sequence. -/
def split_text_str (s : String) : List String :=
  (split_text s.data).map String.mk

/-- Chunk `b` starts with the final `n` units of chunk `a`: the two
adjacent chunks share an overlap of at least `n` units. -/
def overlapsBy (a b : List Char) (n : Nat) : Prop :=
  n ≤ a.length ∧ n ≤ b.length ∧ a.drop (a.length - n) = b.take n

/-- Helper: every chunk the splitter emits has length at most 1000. -/
theorem split_text_length_le (l : List Char) : ∀ c ∈ split_text l, c.length ≤ 1000 := by
  induction l using split_text.induct with
  | case1 l h =>
    rw [split_text, dif_pos h]
    intro c hc
    rw [List.mem_singleton.1 hc]
    exact h
  | case2 l h ih =>
    rw [split_text, dif_neg h]
    intro c hc
    rcases List.mem_cons.1 hc with h1 | h1
    · rw [h1, List.length_take]
      exact min_le_left _ _
    · exact ih c h1

/-- Helper: the splitter's first chunk is the first 1000 characters (all
of the text when it is short). -/
theorem split_text_head (l : List Char) :
    ∃ rest, split_text l = l.take 1000 :: rest := by
  by_cases h : l.length ≤ 1000
  · refine ⟨[], ?_⟩
    rw [split_text, dif_pos h, List.take_of_length_le h]
  · exact ⟨split_text (l.drop 800), by rw [split_text, dif_neg h]⟩

/-- Helper: consecutive chunks overlap by (at least) 200 characters. -/
theorem split_text_chain (l : List Char) :
    List.Chain' (fun a b => overlapsBy a b 200) (split_text l) := by
  induction l using split_text.induct with
  | case1 l h =>
    rw [split_text, dif_pos h]
    exact List.chain'_singleton l
  | case2 l h ih =>
    rw [split_text, dif_neg h]
    refine List.chain'_cons'.2 ⟨?_, ih⟩
    intro b hb
    obtain ⟨rest, hrest⟩ := split_text_head (l.drop 800)
    rw [hrest] at hb
    simp only [List.head?_cons, Option.mem_def, Option.some.injEq] at hb
    subst hb
    have hlen : 1000 < l.length := by omega
    have hta : (l.take 1000).length = 1000 := by
      rw [List.length_take]
      omega
    refine ⟨by omega, ?_, ?_⟩
    · rw [List.length_take, List.length_drop]
      omega
    · rw [hta, List.drop_take, List.take_take]
      norm_num

/-- C2: every chunk the chunker emits for a document has length at most
1000, and each pair of chunks adjacent in their parent document
overlaps by at least 200 units (the second chunk starts with the last
200 characters of the first). -/
theorem claim_C2_chunk_size_and_overlap (d : Document) :
    (∀ t ∈ split_text_str d.content, t.length ≤ 1000) ∧
    List.Chain' (fun a b => overlapsBy a.data b.data 200) (split_text_str d.content) := by
  constructor
  · intro t ht
    obtain ⟨c, hc, hct⟩ := List.mem_map.1 ht
    rw [← hct]
    exact split_text_length_le _ c hc
  · rw [split_text_str, List.chain'_map]
    exact split_text_chain d.content.data

/-- Stored entry of the FAISS docstore: the chunk text (`page_content`)
and its `source` metadata entry as recorded by
`process_and_store_documents` (chatbot.py line 133); the formatter reads
it with `metadata.get('source', 'Unknown')`, hence the `Option`. -/
structure StoredDoc where
  page_content : String
  source : Option String
deriving Repr, DecidableEq

/-- Modelled from the spec: the FAISS vector store internals are external
to the repository (spec §1 treats the index as an opaque
nearest-neighbor oracle and §4.3 fixes its contract).  An index is the
sequence of its records: one embedding vector with its stored document
per indexed text. -/
structure FIndex where
  records : List (List Int × StoredDoc)
deriving Repr, DecidableEq

/-- Modelled from the spec: `FAISS.from_texts(texts, embedding,
metadatas)` (chatbot.py lines 139-143) embeds every text with the
embedding oracle and stores it together with its metadata, in order. -/
def from_texts (embed : String → List Int) (texts : List String)
    (metadatas : List (Option String)) : FIndex :=
  ⟨(texts.zip metadatas).map fun p => (embed p.1, ⟨p.1, p.2⟩)⟩

/-- Squared Euclidean distance between two embedding vectors. -/
def sqDist (a b : List Int) : Int :=
  ((a.zip b).map fun p => (p.1 - p.2) * (p.1 - p.2)).sum

/-- Insert a record into a list sorted by ascending distance to the
query vector; ties keep the earlier record first. -/
def insertByDist (q : List Int) (x : List Int × StoredDoc) :
    List (List Int × StoredDoc) → List (List Int × StoredDoc)
  | [] => [x]
  | y :: ys =>
    if sqDist q x.1 < sqDist q y.1 then x :: y :: ys else y :: insertByDist q x ys

/-- Modelled from the spec: `similarity_search(query, k)` (spec §4.3)
embeds the query with the same embedding oracle and returns the `k`
stored documents nearest to it by distance, nearest first. -/
def similarity_search (embed : String → List Int) (idx : FIndex)
    (query : String) (k : Nat) : List StoredDoc :=
  ((idx.records.foldr (insertByDist (embed query)) []).take k).map Prod.snd

/-- Persisted form of an index: parallel arrays of the embedding
vectors, chunk texts and source metadata. -/
structure SavedIndex where
  vectors : List (List Int)
  contents : List String
  sources : List (Option String)
deriving Repr, DecidableEq

/-- Modelled from the spec: `save_local` (chatbot.py line 147) persists
the index by serializing its records into parallel arrays. -/
def save_local (idx : FIndex) : SavedIndex :=
  ⟨idx.records.map fun r => r.1,
    idx.records.map fun r => r.2.page_content,
    idx.records.map fun r => r.2.source⟩

/-- Modelled from the spec: `load_local` (chatbot.py lines 157-161 /
main.py lines 73-77) deserializes a persisted index back into its
records. -/
def load_local (s : SavedIndex) : FIndex :=
  ⟨(s.vectors.zip (s.contents.zip s.sources)).map fun p => (p.1, ⟨p.2.1, p.2.2⟩)⟩

/-- `RAGSystem.process_and_store_documents` (chatbot.py lines 116-149):
split every document, carry each chunk's parent source as metadata,
build the index over all chunks and persist it. -/
def process_and_store_documents (embed : String → List Int)
    (documents : List Document) : FIndex × SavedIndex :=
  let texts := documents.flatMap fun d => split_text_str d.content
  let metadatas := documents.flatMap fun d =>
    (split_text_str d.content).map fun _ => some d.source
  let vectorstore := from_texts embed texts metadatas
  (vectorstore, save_local vectorstore)

/-- Helper: persistence round-trips — loading a saved index restores its
records exactly. -/
theorem load_local_save_local (idx : FIndex) : load_local (save_local idx) = idx := by
  obtain ⟨records⟩ := idx
  simp only [save_local, load_local, FIndex.mk.injEq]
  induction records with
  | nil => rfl
  | cons r rs ih =>
    simp only [List.map_cons, List.zip_cons_cons, ih]

/-- C9: searching the index persisted by build and reloaded from disk
answers every query with the same top-k results, in the same order, as
the freshly built in-memory index — both for a direct build from texts
and metadata and for the document-level build-and-persist pipeline.
(The embedding oracle is a function, so its determinism is part of the
model.) -/
theorem claim_C9_persisted_index_round_trip (embed : String → List Int)
    (texts : List String) (metadatas : List (Option String))
    (documents : List Document) (query : String) (k : Nat) :
    similarity_search embed (load_local (save_local (from_texts embed texts metadatas)))
        query k =
      similarity_search embed (from_texts embed texts metadatas) query k ∧
    similarity_search embed (load_local (process_and_store_documents embed documents).2)
        query k =
      similarity_search embed (process_and_store_documents embed documents).1 query k := by
  constructor
  · rw [load_local_save_local]
  · show similarity_search embed
      (load_local (save_local (process_and_store_documents embed documents).1)) query k = _
    rw [load_local_save_local]

/-- Rank-labelled formatter loop of `retrieve_context` (main.py lines
88-97): one labelled section and one source entry per retrieved
document, ranks counted from the given start. -/
def formatDocs : Nat → List StoredDoc → List String × List String
  | _, [] => ([], [])
  | i, d :: ds =>
    let source := (d.source).getD "Unknown"
    let rest := formatDocs (i + 1) ds
    (("[Source " ++ toString i ++ ": " ++ source ++ "]\n" ++ d.page_content) :: rest.1,
      source :: rest.2)

/-- `RAGSystem.retrieve_context` of main.py (lines 80-97): context block
plus source list; both empty when the vectorstore is unset. -/
def retrieve_context (embed : String → List Int) (vectorstore : Option FIndex)
    (query : String) (k : Nat) : String × List String :=
  match vectorstore with
  | none => ("", [])
  | some vs =>
    let docs := similarity_search embed vs query k
    let fmt := formatDocs 1 docs
    (String.intercalate "\n\n" fmt.1, fmt.2)

/-- `RAGSystem.retrieve_context` of chatbot.py (lines 164-178): console
variant, returning only the context block. -/
def retrieve_context_console (embed : String → List Int) (vectorstore : Option FIndex)
    (query : String) (k : Nat) : String :=
  match vectorstore with
  | none => ""
  | some vs =>
    let docs := similarity_search embed vs query k
    String.intercalate "\n\n" (formatDocs 1 docs).1

/-- C4: for every query, retrieval against an unset vectorstore or
against an index built from zero chunks returns the empty context and
the empty source list (and, being a total function, raises no error) —
in both the HTTP and the console variant. -/
theorem claim_C4_empty_index_empty_result (embed : String → List Int)
    (query : String) (k : Nat) :
    retrieve_context embed none query k = ("", []) ∧
    retrieve_context embed (some (from_texts embed [] [])) query k = ("", []) ∧
    retrieve_context_console embed none query k = "" ∧
    retrieve_context_console embed (some (from_texts embed [] [])) query k = "" := by
  have hsearch : similarity_search embed (from_texts embed [] []) query k = [] := by
    simp only [similarity_search, from_texts, List.zip_nil_left, List.map_nil,
      List.foldr_nil, List.take_nil]
  refine ⟨rfl, ?_, rfl, ?_⟩
  · simp only [retrieve_context, hsearch]
    rfl
  · simp only [retrieve_context_console, hsearch]
    rfl

/-- LangChain prompt message: `SystemMessage`, `HumanMessage` or
`AIMessage`. -/
inductive Msg where
  | system (content : String)
  | human (content : String)
  | ai (content : String)
deriving Repr, DecidableEq

/-- System prompt of the console chatbot (chatbot.py lines 254-261),
with the retrieved context interpolated. -/
def console_system_prompt (context : String) : String :=
  "You are a helpful AI assistant for Agiteks. \nUse the following context from the Agiteks website to answer the user's question.\nIf the answer is not in the context, say so and provide a general helpful response.\n\nContext from Agiteks website:\n"
    ++ context ++ "\n\nBe concise, friendly, and accurate."

/-- Prompt sequence built by the console chatbot (chatbot.py lines
264-266): the system message, then `conversation_history[-6:]`, then the
new user message. -/
def console_messages (context : String) (history : List Msg) (user_input : String) :
    List Msg :=
  Msg.system (console_system_prompt context) ::
    (history.drop (history.length - 6) ++ [Msg.human user_input])

/-- Control words ending the console loop (chatbot.py line 242). -/
def quitWords : List String := ["quit", "exit", "bye"]

/-- Outcome of one console loop iteration: `quit` breaks the loop,
`cont` proceeds to the next prompt. -/
inductive TurnOutcome where
  | quit
  | cont
deriving Repr, DecidableEq

/-- Oracle invocations a turn can perform: a vector-store retrieval or a
language-model call. -/
inductive CallEv where
  | retrieveCall
  | llmCall
deriving Repr, DecidableEq

/-- Result of one console loop iteration: the conversation history after
the turn, the loop outcome, the log of oracle calls performed, and the
line printed (if any). -/
structure TurnResult where
  history : List Msg
  outcome : TurnOutcome
  calls : List CallEv
  printed : Option String
deriving Repr, DecidableEq

/-- One iteration of the console chat loop (chatbot.py lines 239-278).
The retrieval and model oracles may fail (`Except.error` standing for a
raised exception); the `try` block spanning lines 249-275 turns any such
failure into a printed error and a continue, and the history is appended
to only after a successful model call (lines 272-273). -/
def consoleTurn (retrieve : String → Except String String)
    (llm : List Msg → Except String String)
    (history : List Msg) (rawInput : String) : TurnResult :=
  let user_input := pyStrip rawInput
  if quitWords.contains (pyLower user_input) then
    ⟨history, .quit, [], some "Chatbot: Goodbye! Have a great day!"⟩
  else if user_input = "" then
    ⟨history, .cont, [], none⟩
  else
    match retrieve user_input with
    | .error e => ⟨history, .cont, [.retrieveCall], some ("Error: " ++ e ++ "\n")⟩
    | .ok context =>
      match llm (console_messages context history user_input) with
      | .error e =>
        ⟨history, .cont, [.retrieveCall, .llmCall], some ("Error: " ++ e ++ "\n")⟩
      | .ok resp =>
        ⟨history ++ [Msg.human user_input, Msg.ai resp], .cont,
          [.retrieveCall, .llmCall], some ("Chatbot: " ++ resp ++ "\n")⟩

/-- Pydantic `Message` model of main.py (lines 37-39). -/
structure Message where
  content : String
  role : String
deriving Repr, DecidableEq

/-- Pydantic `ChatRequest` model of main.py (lines 41-44). -/
structure ChatRequest where
  content : String
  role : String
  conversation_history : Option (List Message)
deriving Repr, DecidableEq

/-- Pydantic `ChatResponse` model of main.py (lines 46-49). -/
structure ChatResponse where
  content : String
  role : String
  sources : Option (List String)
deriving Repr, DecidableEq

/-- System prompt of the HTTP handler (main.py lines 162-169), with the
retrieved context interpolated. -/
def http_system_prompt (context : String) : String :=
  "You are AgiAI, a helpful and friendly AI assistant for Agiteks. \nUse the following context from the Agiteks website to answer the user's question accurately.\nIf the answer is not in the context, say so politely and provide a general helpful response.\n\nContext from Agiteks website:\n"
    ++ context ++ "\n\nBe concise, friendly, professional, and accurate in your responses."

/-- Translation of one history entry (main.py lines 177-181): role
"user" becomes a `HumanMessage`, role "bot" an `AIMessage`, anything
else is dropped. -/
def roleToMsg (m : Message) : Option Msg :=
  if m.role = "user" then some (Msg.human m.content)
  else if m.role = "bot" then some (Msg.ai m.content)
  else none

/-- History portion of the HTTP prompt (main.py lines 174-181): when a
history is provided and non-empty (Python truthiness of the optional
list), its last six entries are translated in order. -/
def historyMsgs : Option (List Message) → List Msg
  | none => []
  | some hs =>
    if hs.isEmpty then [] else (hs.drop (hs.length - 6)).filterMap roleToMsg

/-- Prompt sequence built by the HTTP handler (main.py lines 172-184):
system message, translated recent history, then the user message. -/
def http_messages (context : String) (history : Option (List Message))
    (user_message : String) : List Msg :=
  Msg.system (http_system_prompt context) ::
    (historyMsgs history ++ [Msg.human user_message])

/-- FastAPI `HTTPException` payload. -/
structure HTTPEx where
  status : Nat
  detail : String
deriving Repr, DecidableEq

/-- Python `str()` of an `HTTPException`: `"status: detail"`. -/
def strHTTPEx (e : HTTPEx) : String := toString e.status ++ ": " ++ e.detail

/-- Observable result of the `/getMsg` handler: HTTP status, error
detail (empty on success), response body, and oracle calls made. -/
structure ApiResult where
  status : Nat
  detail : String
  body : Option ChatResponse
  calls : List CallEv
deriving Repr, DecidableEq

/-- Body of the `try` block of `get_message` (main.py lines 152-194):
strip the content; raise `HTTPException(400)` when empty; otherwise
retrieve context (k=3), compose the prompt, invoke the model and return
the response with its sources (`None` when the source list is empty). -/
def get_message_try (embed : String → List Int) (vectorstore : Option FIndex)
    (llm : List Msg → String) (request : ChatRequest) :
    Except HTTPEx ChatResponse × List CallEv :=
  let user_message := pyStrip request.content
  if user_message = "" then
    (.error ⟨400, "Message content cannot be empty"⟩, [])
  else
    let cs := retrieve_context embed vectorstore user_message 3
    let messages := http_messages cs.1 request.conversation_history user_message
    let resp := llm messages
    (.ok ⟨resp, "bot", if cs.2.isEmpty then none else some cs.2⟩,
      [.retrieveCall, .llmCall])

/-- `get_message`, the POST /getMsg handler (main.py lines 135-201).
The initialization guards raise 503 before the `try` block.  Inside the
block the empty-content check raises `HTTPException(400)`, but the
blanket `except Exception` at line 196 catches every exception raised in
the block — `HTTPException` included — and re-raises status 500 with the
exception's text embedded in the detail. -/
def get_message (embed : String → List Int) (rag_system : Option (Option FIndex))
    (llm : Option (List Msg → String)) (request : ChatRequest) : ApiResult :=
  match rag_system with
  | none =>
    ⟨503, "RAG system not initialized. Please ensure FAISS index exists.", none, []⟩
  | some vectorstore =>
    match vectorstore with
    | none =>
      ⟨503, "RAG system not initialized. Please ensure FAISS index exists.", none, []⟩
    | some vs =>
      match llm with
      | none => ⟨503, "LLM not initialized. Please check GROQ_API_KEY.", none, []⟩
      | some llmF =>
        match get_message_try embed (some vs) llmF request with
        | (.ok r, calls) => ⟨200, "", some r, calls⟩
        | (.error e, calls) =>
          ⟨500, "Error processing your message: " ++ strHTTPEx e, none, calls⟩

/-- Helper: on history entries whose role is "user" or "bot" the
translation drops nothing. -/
theorem filterMap_roleToMsg_eq_map (l : List Message)
    (h : ∀ m ∈ l, m.role = "user" ∨ m.role = "bot") :
    l.filterMap roleToMsg =
      l.map fun m => if m.role = "user" then Msg.human m.content else Msg.ai m.content := by
  induction l with
  | nil => rfl
  | cons m ms ih =>
    have hm := h m (List.mem_cons_self _ _)
    have ih' := ih fun x hx => h x (List.mem_cons_of_mem _ hx)
    rcases hm with hr | hr
    · simp [List.filterMap_cons, roleToMsg, hr, ih']
    · have hne : m.role ≠ "user" := by simp [hr]
      simp [List.filterMap_cons, roleToMsg, hr, hne, ih']

/-- C7: with ten prior turns, the composed prompt is the system
instruction, then exactly the most recent six history entries in
oldest-first order, then the new user message — in the console variant
(chatbot.py lines 264-266) and in the HTTP variant (main.py lines
172-184), whose history entries carry role "user" or "bot". -/
theorem claim_C7_history_truncation (context user_input : String)
    (history : List Msg) (h10 : history.length = 10)
    (hhist : List Message) (hh10 : hhist.length = 10)
    (hroles : ∀ m ∈ hhist, m.role = "user" ∨ m.role = "bot") :
    console_messages context history user_input =
      Msg.system (console_system_prompt context) ::
        (history.drop 4 ++ [Msg.human user_input]) ∧
    (history.drop 4).length = 6 ∧
    http_messages context (some hhist) user_input =
      Msg.system (http_system_prompt context) ::
        ((hhist.drop 4).map
            (fun m => if m.role = "user" then Msg.human m.content else Msg.ai m.content)
          ++ [Msg.human user_input]) ∧
    ((hhist.drop 4).map
        (fun m => if m.role = "user" then Msg.human m.content else Msg.ai m.content)).length
      = 6 := by
  refine ⟨?_, ?_, ?_, ?_⟩
  · rw [console_messages, h10]
  · rw [List.length_drop, h10]
  · rw [http_messages, historyMsgs]
    have hne : hhist.isEmpty = false := by
      cases hhist with
      | nil => simp at hh10
      | cons a l => rfl
    rw [hne]
    simp only [Bool.false_eq_true, if_false, hh10]
    rw [filterMap_roleToMsg_eq_map]
    intro m hm
    exact hroles m (List.mem_of_mem_drop hm)
  · rw [List.length_map, List.length_drop, hh10]

/-- Concrete ten-turn console history for the C7 witness. -/
def history10 : List Msg :=
  [.human "t1", .ai "t2", .human "t3", .ai "t4", .human "t5",
    .ai "t6", .human "t7", .ai "t8", .human "t9", .ai "t10"]

/-- Concrete ten-turn HTTP history for the C7 witness. -/
def hhist10 : List Message :=
  [⟨"t1", "user"⟩, ⟨"t2", "bot"⟩, ⟨"t3", "user"⟩, ⟨"t4", "bot"⟩, ⟨"t5", "user"⟩,
    ⟨"t6", "bot"⟩, ⟨"t7", "user"⟩, ⟨"t8", "bot"⟩, ⟨"t9", "user"⟩, ⟨"t10", "bot"⟩]

/-- Witness for C7 at concrete ten-turn histories. -/
theorem claim_C7_witness :
    console_messages "ctx" history10 "q" =
      Msg.system (console_system_prompt "ctx") ::
        (history10.drop 4 ++ [Msg.human "q"]) ∧
    (history10.drop 4).length = 6 ∧
    http_messages "ctx" (some hhist10) "q" =
      Msg.system (http_system_prompt "ctx") ::
        ((hhist10.drop 4).map
            (fun m => if m.role = "user" then Msg.human m.content else Msg.ai m.content)
          ++ [Msg.human "q"]) ∧
    ((hhist10.drop 4).map
        (fun m => if m.role = "user" then Msg.human m.content else Msg.ai m.content)).length
      = 6 :=
  claim_C7_history_truncation "ctx" "q" history10 (by decide) hhist10 (by decide)
    (by decide)

/-- C8: in both variants, a user message that is empty after trimming is
rejected before any retrieval or model call occurs: the HTTP handler
performs no oracle call and produces no response body, and the console
iteration performs no oracle call, prints nothing and leaves the history
unchanged while continuing the loop. -/
theorem claim_C8_blank_input_rejected_before_calls
    (embed : String → List Int) (rag_system : Option (Option FIndex))
    (llm : Option (List Msg → String)) (request : ChatRequest)
    (hreq : pyStrip request.content = "")
    (retrieve : String → Except String String)
    (llmC : List Msg → Except String String)
    (history : List Msg) (rawInput : String) (hin : pyStrip rawInput = "") :
    (get_message embed rag_system llm request).calls = [] ∧
    (get_message embed rag_system llm request).body = none ∧
    consoleTurn retrieve llmC history rawInput =
      ⟨history, .cont, [], none⟩ := by
  refine ⟨?_, ?_, ?_⟩
  · match rag_system with
    | none => rfl
    | some none => rfl
    | some (some vs) =>
      match llm with
      | none => rfl
      | some llmF =>
        simp only [get_message, get_message_try, hreq, if_true]
  · match rag_system with
    | none => rfl
    | some none => rfl
    | some (some vs) =>
      match llm with
      | none => rfl
      | some llmF =>
        simp only [get_message, get_message_try, hreq, if_true]
  · rw [consoleTurn]
    simp only [hin]
    rfl

/-- Witness for C8 at a whitespace-only message in both variants. -/
theorem claim_C8_witness :
    (get_message (fun _ => [0]) (some (some ⟨[]⟩)) (some fun _ => "ok")
        ⟨"   ", "user", none⟩).calls = [] ∧
    (get_message (fun _ => [0]) (some (some ⟨[]⟩)) (some fun _ => "ok")
        ⟨"   ", "user", none⟩).body = none ∧
    consoleTurn (fun _ => .ok "ctx") (fun _ => .ok "resp") [] "   " =
      ⟨[], .cont, [], none⟩ :=
  claim_C8_blank_input_rejected_before_calls (fun _ => [0]) (some (some ⟨[]⟩))
    (some fun _ => "ok") ⟨"   ", "user", none⟩ (by decide)
    (fun _ => .ok "ctx") (fun _ => .ok "resp") [] "   " (by decide)

/-- C10: if the retrieval or the model invocation of a console turn
fails (raises), the conversation history is left unchanged by that turn
— neither the user message nor an assistant reply is appended — and the
loop continues to the next prompt. -/
theorem claim_C10_failed_turn_leaves_history_unchanged
    (retrieve : String → Except String String)
    (llm : List Msg → Except String String)
    (history : List Msg) (rawInput : String)
    (hnq : quitWords.contains (pyLower (pyStrip rawInput)) = false)
    (hfail : (∃ e, retrieve (pyStrip rawInput) = .error e) ∨
      (∃ ctx e, retrieve (pyStrip rawInput) = .ok ctx ∧
        llm (console_messages ctx history (pyStrip rawInput)) = .error e)) :
    (consoleTurn retrieve llm history rawInput).history = history ∧
    (consoleTurn retrieve llm history rawInput).outcome = .cont := by
  rw [consoleTurn]
  simp only [hnq, Bool.false_eq_true, if_false]
  by_cases hempty : pyStrip rawInput = ""
  · rw [if_pos hempty]
    exact ⟨rfl, rfl⟩
  · rw [if_neg hempty]
    rcases hfail with ⟨e, he⟩ | ⟨ctx, e, hok, herr⟩
    · rw [he]
      exact ⟨rfl, rfl⟩
    · rw [hok]
      simp only [herr]
      exact ⟨trivial, trivial⟩

/-- Witness for C10: a concrete turn whose model call fails leaves the
(one-turn) history unchanged and continues. -/
theorem claim_C10_witness :
    (consoleTurn (fun _ => .ok "ctx") (fun _ => .error "boom")
        [Msg.human "hi"] "hello").history = [Msg.human "hi"] ∧
    (consoleTurn (fun _ => .ok "ctx") (fun _ => .error "boom")
        [Msg.human "hi"] "hello").outcome = .cont :=
  claim_C10_failed_turn_leaves_history_unchanged (fun _ => .ok "ctx")
    (fun _ => .error "boom") [Msg.human "hi"] "hello" (by decide)
    (Or.inr ⟨"ctx", "boom", rfl, rfl⟩)

/-- Concrete embedding oracle for the C1 evaluation. -/
def exEmbed : String → List Int := fun s => [Int.ofNat s.length]

/-- Concrete non-empty index for the C1 evaluation. -/
def exIndex : FIndex :=
  from_texts exEmbed ["Agiteks offers consulting"] [some "https://agiteks.com/services"]

/-- C1 (divergence witness): with the index and model client initialized,
a request whose content is whitespace-only is answered with HTTP status
500 — the `HTTPException(400)` raised at main.py line 156 is caught by
the blanket `except Exception` at line 196 and re-raised as 500 with the
400's text inside the detail — while the uninitialized-index and
uninitialized-model cases do return 503 as claimed. -/
theorem claim_C1_empty_content_gives_500_not_400 :
    (get_message exEmbed (some (some exIndex)) (some fun _ => "ok")
        ⟨"   ", "user", none⟩).status = 500 ∧
    (get_message exEmbed (some (some exIndex)) (some fun _ => "ok")
        ⟨"   ", "user", none⟩).detail =
      "Error processing your message: 400: Message content cannot be empty" ∧
    (get_message exEmbed none (some fun _ => "ok") ⟨"hello", "user", none⟩).status
      = 503 ∧
    (get_message exEmbed (some none) (some fun _ => "ok")
        ⟨"hello", "user", none⟩).status = 503 ∧
    (get_message exEmbed (some (some exIndex)) none
        ⟨"hello", "user", none⟩).status = 503 :=
  ⟨rfl, rfl, rfl, rfl, rfl⟩

end AgiAI
